import Mathlib

/-!
# gatekeeper-log-exporter: the log-to-sample pipeline

A shallow embedding of `main.go` (file selection, line parsing, bucket
aggregation, checkpointing and the drain loop) together with the properties
of the pipeline that were checked against it.

Conventions of the embedding.

* A Go call that can return a value, return an `error`, or panic at run time
  is a value of `Outcome`.
* `uint64` counters are natural numbers, every addition is reduced modulo
  `2 ^ 64` explicitly; `int` is 64 bits wide.
* Results of the operating system (`os.ReadDir`, `os.ReadFile`, `os.Open`,
  the scanner) are inputs of the functions that consume them; the calls of
  `saveLastLog` act on an explicit filesystem.
-/

namespace Gkle

/-! ## Outcomes of Go calls -/

/-- Go `error` values that the program produces: the sentinel `errNoMatch`
(compared by identity in `match`) and every other, message-carrying error. -/
inductive Err where
  | errNoMatch
  | other (msg : String)
  deriving DecidableEq, Repr

/-- The three ways a Go call ends: a value, an ordinary `error`, a panic. -/
inductive Outcome (α : Type) where
  | ok (a : α)
  | error (e : Err)
  | panic
  deriving DecidableEq, Repr

/-- Sequencing of calls: an error or a panic of the first call ends the
computation (the `if err != nil { return ... }` idiom). -/
def Outcome.bind {α β : Type} (x : Outcome α) (f : α → Outcome β) : Outcome β :=
  match x with
  | .ok a => f a
  | .error e => .error e
  | .panic => .panic

/-! ## The two regular expressions

Both patterns of `main.go` are flat sequences of literals, `\d`, `\d+`,
`\s+`, `.` and capture groups.  Every `+` is followed by an item that starts
with a character outside the repeated class, so the leftmost-first match of
Go's `regexp` takes the longest run at every `+` and never backtracks: the
matcher below consumes greedily, item by item. -/

/-- One item of a flat pattern. -/
inductive Tok where
  | lit (c : Char)
  | digit
  | digits
  | spaces
  | anyChar
  | gopen
  | gclose
  deriving DecidableEq, Repr

/-- The class `\d` of Go's `regexp`: ASCII digits. -/
def isDigit (c : Char) : Bool := decide (48 ≤ c.toNat) && decide (c.toNat ≤ 57)

/-- The class `\s` of Go's `regexp`: tab, newline, form feed, carriage
return, space. -/
def isSpace (c : Char) : Bool :=
  c.toNat == 9 || c.toNat == 10 || c.toNat == 12 || c.toNat == 13 || c.toNat == 32

/-- Matcher state: text consumed so far, text of the open group, closed
groups; all three in reverse. -/
structure MState where
  whole : List Char
  cur : Option (List Char)
  caps : List String

/-- Record consumed characters in the whole match and in the open group. -/
def MState.consume (st : MState) (cs : List Char) : MState :=
  { st with whole := cs.reverse ++ st.whole,
            cur := st.cur.map (fun g => cs.reverse ++ g) }

/-- Match a flat pattern at the start of the input. -/
def matchToks : List Tok → List Char → MState → Option MState
  | [], _, st => some st
  | .lit c :: ts, x :: xs, st =>
      if x = c then matchToks ts xs (st.consume [x]) else none
  | .lit _ :: _, [], _ => none
  | .digit :: ts, x :: xs, st =>
      if isDigit x then matchToks ts xs (st.consume [x]) else none
  | .digit :: _, [], _ => none
  | .anyChar :: ts, x :: xs, st =>
      if x.toNat ≠ 10 then matchToks ts xs (st.consume [x]) else none
  | .anyChar :: _, [], _ => none
  | .digits :: ts, xs, st =>
      if (xs.takeWhile isDigit).isEmpty then none
      else matchToks ts (xs.dropWhile isDigit) (st.consume (xs.takeWhile isDigit))
  | .spaces :: ts, xs, st =>
      if (xs.takeWhile isSpace).isEmpty then none
      else matchToks ts (xs.dropWhile isSpace) (st.consume (xs.takeWhile isSpace))
  | .gopen :: ts, xs, st => matchToks ts xs { st with cur := some [] }
  | .gclose :: ts, xs, st =>
      matchToks ts xs
        { st with cur := none, caps := String.mk ((st.cur.getD []).reverse) :: st.caps }

/-- Literal text as pattern items. -/
def lits (s : String) : List Tok := s.toList.map Tok.lit

/-- The item `\d{n}`. -/
def digitN (n : Nat) : List Tok := List.replicate n Tok.digit

/-- A captured `(\d+)`. -/
def capDigits : List Tok := [Tok.gopen, Tok.digits, Tok.gclose]

/-- The fragment `name\s+=\s+(\d+)` of the line pattern. -/
def field (name : String) : List Tok :=
  lits name ++ [Tok.spaces] ++ lits "=" ++ [Tok.spaces] ++ capDigits

/-- The fragment `,\s+` between two fields. -/
def comma : List Tok := lits "," ++ [Tok.spaces]

/-- The pattern `logFileRegex`:
`gatekeeper_\d{4}_\d{2}_\d{2}_\d{2}_\d{2}.log` (the dot is unescaped). -/
def logFileRegex : List Tok :=
  lits "gatekeeper_" ++ digitN 4 ++ lits "_" ++ digitN 2 ++ lits "_" ++ digitN 2
    ++ lits "_" ++ digitN 2 ++ lits "_" ++ digitN 2 ++ [Tok.anyChar] ++ lits "log"

/-- The default pattern `logLineRegex`, anchored at the start of the line by
its leading `^`. -/
def logLineRegex : List Tok :=
  lits "GK/" ++ capDigits ++ [Tok.spaces]
    ++ [Tok.gopen] ++ digitN 4 ++ lits "-" ++ digitN 2 ++ lits "-" ++ digitN 2
    ++ [Tok.spaces] ++ digitN 2 ++ lits ":" ++ digitN 2 ++ lits ":" ++ digitN 2
    ++ [Tok.gclose] ++ [Tok.spaces]
    ++ lits "NOTICE" ++ [Tok.spaces] ++ lits "Basic" ++ [Tok.spaces]
    ++ lits "measurements" ++ [Tok.spaces] ++ lits "["
    ++ field "tot_pkts_num" ++ comma
    ++ field "tot_pkts_size" ++ comma
    ++ field "pkts_num_granted" ++ comma
    ++ field "pkts_size_granted" ++ comma
    ++ field "pkts_num_request" ++ comma
    ++ field "pkts_size_request" ++ comma
    ++ field "pkts_num_declined" ++ comma
    ++ field "pkts_size_declined" ++ comma
    ++ field "tot_pkts_num_dropped" ++ comma
    ++ field "tot_pkts_size_dropped" ++ comma
    ++ field "tot_pkts_num_distributed" ++ comma
    ++ field "tot_pkts_size_distributed" ++ comma
    ++ lits "flow_table_occupancy" ++ [Tok.spaces] ++ lits "=" ++ [Tok.spaces]
    ++ capDigits ++ lits "/" ++ capDigits ++ lits "=" ++ [Tok.digits] ++ lits "."
    ++ [Tok.digits] ++ lits "%]"

/-- The start state of a match. -/
def MState.start : MState := { whole := [], cur := none, caps := [] }

/-- Unanchored search, `MatchString` of an unanchored pattern: the pattern
matches at some offset of the input. -/
def matchAnywhere (p : List Tok) : List Char → Bool
  | [] => (matchToks p [] MState.start).isSome
  | x :: xs => (matchToks p (x :: xs) MState.start).isSome || matchAnywhere p xs

/-- The call `logFileRegex.MatchString(name)`. -/
def logFileMatch (name : String) : Bool := matchAnywhere logFileRegex name.toList

/-- The call `logLineRegex.FindStringSubmatch(line)`: `none` for Go's `nil`,
otherwise the whole match followed by the sixteen groups. -/
def findStringSubmatch (line : String) : Option (List String) :=
  match matchToks logLineRegex line.toList MState.start with
  | none => none
  | some st => some (String.mk st.whole.reverse :: st.caps.reverse)

/-! ## File selection -/

/-- A directory entry as `getFilesToParse` reads it: `Name()` and `IsDir()`. -/
structure DirEntry where
  name : String
  isDir : Bool
  deriving DecidableEq, Repr

/-- The result of `os.ReadFile(lastLogFile)`: the contents, an error for
which `os.IsNotExist` holds, or any other error. -/
inductive ReadResult where
  | content (s : String)
  | notExist
  | otherError
  deriving DecidableEq, Repr

/-- The loop of `getFilesToParse` over the directory entries, carrying
`files` and `lastParsedLogPosition`. -/
def selectLoop (join : String → String → String) (path lastParsedLog : String) :
    List DirEntry → List String → Int → List String × Int
  | [], files, pos => (files, pos)
  | entry :: rest, files, pos =>
      if !entry.isDir && logFileMatch entry.name then
        let fileName := join path entry.name
        let files1 := files ++ [fileName]
        if fileName = lastParsedLog then
          selectLoop join path lastParsedLog rest files1 ((files1.length : Int) - 1)
        else
          selectLoop join path lastParsedLog rest files1 pos
      else
        selectLoop join path lastParsedLog rest files pos

/-- The Go slice expression `s[lo:hi]` on a slice of length `len(s)` whose
bounds are run-time values: a panic unless `0 ≤ lo ≤ hi ≤ len(s)`.  (Both uses
below have `hi = len(s) - 1`, so the capacity never decides.) -/
def goSlice {α : Type} (s : List α) (lo hi : Int) : Outcome (List α) :=
  if 0 ≤ lo ∧ lo ≤ hi ∧ hi ≤ (s.length : Int) then
    .ok ((s.take hi.toNat).drop lo.toNat)
  else
    .panic

/-- The function `getFilesToParse`.  `join` is `filepath.Join`, `readDir` the
result of `os.ReadDir(path)` and `readLast` the result of
`os.ReadFile(lastLogFile)`. -/
def getFilesToParse (join : String → String → String) (path : String)
    (readDir : Option (List DirEntry)) (readLast : ReadResult) : Outcome (List String) :=
  match readDir with
  | none => .error (.other "error reading gatekeeper log dir")
  | some entries =>
    match readLast with
    | .otherError => .error (.other "error reading last log file")
    | r =>
      let parseAll : Bool := match r with
        | .notExist => true
        | _ => false
      let lastParsedLog : String := match r with
        | .content s => s
        | _ => ""
      let (files, lastParsedLogPosition) := selectLoop join path lastParsedLog entries [] 0
      if parseAll || lastParsedLogPosition == 0 then
        goSlice files 0 ((files.length : Int) - 1)
      else
        goSlice files (lastParsedLogPosition + 1) ((files.length : Int) - 1)

/-- The value of `filepath.Join(dir, name)` for a clean, non-empty directory
path without trailing separator and a plain entry name. -/
def pathJoin (dir name : String) : String := dir ++ "/" ++ name

/-! ## Line parsing -/

/-- A `time.Time` produced by `time.Parse` with `timeLayout`: the civil
fields of a UTC instant.  The zero value is Go's zero `Time`
(January 1, year 1, 00:00:00 UTC). -/
structure Time where
  year : Nat
  month : Nat
  day : Nat
  hour : Nat
  min : Nat
  sec : Nat
  deriving DecidableEq, Repr

/-- The zero value of `time.Time`. -/
def Time.zero : Time := ⟨1, 1, 1, 0, 0, 0⟩

/-- The struct `exporter.Measurements`: fourteen `uint64` counters. -/
structure Measurements where
  TotPktsNum : Nat
  TotPktsSize : Nat
  PktsNumGranted : Nat
  PktsSizeGranted : Nat
  PktsNumRequest : Nat
  PktsSizeRequest : Nat
  PktsNumDeclined : Nat
  PktsSizeDeclined : Nat
  TotPktsNumDropped : Nat
  TotPktsSizeDropped : Nat
  TotPktsNumDistributed : Nat
  TotPktsSizeDistributed : Nat
  FlowTableOcupancyCurrent : Nat
  FlowTableOcupancyMax : Nat
  deriving DecidableEq, Repr

/-- The zero value of `exporter.Measurements`. -/
def Measurements.zero : Measurements := ⟨0, 0, 0, 0, 0, 0, 0, 0, 0, 0, 0, 0, 0, 0⟩

/-- The struct `exporter.Entry`. -/
structure Entry where
  Time : Time
  Lcore : Int
  Measurements : Measurements
  deriving DecidableEq, Repr

/-- Value of a decimal digit. -/
def digitVal (c : Char) : Nat := c.toNat - 48

/-- Value of a string of decimal digits. -/
def decimal (cs : List Char) : Nat := cs.foldl (fun acc c => acc * 10 + digitVal c) 0

/-- The call `strconv.ParseUint(s, 10, 64)`: a non-empty string of ASCII
digits whose value is below `2 ^ 64`; everything else is an error. -/
def parseUint (s : String) : Option Nat :=
  if s.toList.isEmpty || !s.toList.all isDigit then none
  else if decimal s.toList < 2 ^ 64 then some (decimal s.toList)
  else none

/-- The function `mustParseUint`: panics where `strconv.ParseUint` fails. -/
def mustParseUint (s : String) : Outcome Nat :=
  match parseUint s with
  | some u => .ok u
  | none => .panic

/-- The call `strconv.Atoi(s)` with a 64-bit `int`: an optional sign and a
non-empty string of ASCII digits, the value within `[-2^63, 2^63 - 1]`. -/
def atoi (s : String) : Option Int :=
  let body (neg : Bool) (cs : List Char) : Option Int :=
    if cs.isEmpty || !cs.all isDigit then none
    else if neg then
      (if decimal cs ≤ 2 ^ 63 then some (-(decimal cs : Int)) else none)
    else
      (if decimal cs < 2 ^ 63 then some (decimal cs : Int) else none)
  match s.toList with
  | '-' :: cs => body true cs
  | '+' :: cs => body false cs
  | cs => body false cs

/-- The helper `getnum` of package `time`: one or two leading digits, exactly
two when `fixed`. -/
def getnum (fixed : Bool) : List Char → Option (Nat × List Char)
  | a :: b :: rest =>
      if isDigit a then
        if isDigit b then some (digitVal a * 10 + digitVal b, rest)
        else if fixed then none else some (digitVal a, b :: rest)
      else none
  | [a] => if isDigit a && !fixed then some (digitVal a, []) else none
  | [] => none

/-- Drop one expected literal character. -/
def skipChar (c : Char) : List Char → Option (List Char)
  | x :: xs => if x = c then some xs else none
  | [] => none

/-- The helper `skip` of package `time` for the layout's single space: the
value, when not exhausted, must start with a space; a run of spaces is
dropped. -/
def skipSpace : List Char → Option (List Char)
  | [] => some []
  | x :: xs => if x = ' ' then some ((x :: xs).dropWhile (fun c => c = ' ')) else none

/-- Leap years of the Gregorian calendar. -/
def isLeap (year : Nat) : Bool := year % 4 == 0 && (year % 100 != 0 || year % 400 == 0)

/-- The helper `daysIn` of package `time`. -/
def daysIn (month year : Nat) : Nat :=
  if month == 2 then (if isLeap year then 29 else 28)
  else if month == 4 || month == 6 || month == 9 || month == 11 then 30
  else 31

/-- The call `time.Parse(timeLayout, s)` for the layout
`2006-01-02 15:04:05`: a four-digit year, two-digit month and day, a run of
spaces, hour, minute and second, each range-checked, the day checked against
the month, nothing left over.  (Fractional seconds, which `time.Parse` also
accepts after the seconds, cannot occur in a string captured by the line
pattern and count as left-over text here.) -/
def timeParse (s : String) : Option Time :=
  match s.toList with
  | y1 :: y2 :: y3 :: y4 :: r0 =>
    if isDigit y1 && isDigit y2 && isDigit y3 && isDigit y4 then
      (skipChar '-' r0).bind fun r1 =>
      (getnum true r1).bind fun (month, r2) =>
      if month = 0 || 12 < month then none else
      (skipChar '-' r2).bind fun r3 =>
      (getnum true r3).bind fun (day, r4) =>
      (skipSpace r4).bind fun r5 =>
      (getnum false r5).bind fun (hour, r6) =>
      if 24 ≤ hour then none else
      (skipChar ':' r6).bind fun r7 =>
      (getnum true r7).bind fun (min, r8) =>
      if 60 ≤ min then none else
      (skipChar ':' r8).bind fun r9 =>
      (getnum true r9).bind fun (sec, r10) =>
      if 60 ≤ sec then none else
      if !r10.isEmpty then none else
      if day < 1 || daysIn month (decimal [y1, y2, y3, y4]) < day then none else
      some ⟨decimal [y1, y2, y3, y4], month, day, hour, min, sec⟩
    else none
  | _ => none

/-- The index expression `matches[i]`: a panic when out of range. -/
def index (xs : List String) (i : Nat) : Outcome String :=
  match xs.get? i with
  | some s => .ok s
  | none => .panic

/-- The function `parseEntry`, with the default `logLineRegex`. -/
def parseEntry (line : String) : Outcome Entry :=
  match findStringSubmatch line with
  | none => .error .errNoMatch
  | some ms =>
    (index ms 2).bind fun m2 =>
    match timeParse m2 with
    | none => .error (.other "error parsing log time")
    | some logTime =>
      (index ms 1).bind fun m1 =>
      match atoi m1 with
      | none => .error (.other "error parsing lcore")
      | some lcore =>
        ((index ms 3).bind mustParseUint).bind fun c3 =>
        ((index ms 4).bind mustParseUint).bind fun c4 =>
        ((index ms 5).bind mustParseUint).bind fun c5 =>
        ((index ms 6).bind mustParseUint).bind fun c6 =>
        ((index ms 7).bind mustParseUint).bind fun c7 =>
        ((index ms 8).bind mustParseUint).bind fun c8 =>
        ((index ms 9).bind mustParseUint).bind fun c9 =>
        ((index ms 10).bind mustParseUint).bind fun c10 =>
        ((index ms 11).bind mustParseUint).bind fun c11 =>
        ((index ms 12).bind mustParseUint).bind fun c12 =>
        ((index ms 13).bind mustParseUint).bind fun c13 =>
        ((index ms 14).bind mustParseUint).bind fun c14 =>
        ((index ms 15).bind mustParseUint).bind fun c15 =>
        ((index ms 16).bind mustParseUint).bind fun c16 =>
        .ok { Time := logTime, Lcore := lcore,
              Measurements := ⟨c3, c4, c5, c6, c7, c8, c9, c10, c11, c12, c13, c14, c15, c16⟩ }

/-! ## Bucket aggregation -/

/-- Addition of two `uint64` values. -/
def addU64 (a b : Nat) : Nat := (a + b) % 2 ^ 64

/-- The fourteen `+=` statements of the body of the loop of `aggregate`. -/
def Measurements.add (aggr m : Measurements) : Measurements :=
  { TotPktsNum := addU64 aggr.TotPktsNum m.TotPktsNum
    TotPktsSize := addU64 aggr.TotPktsSize m.TotPktsSize
    PktsNumGranted := addU64 aggr.PktsNumGranted m.PktsNumGranted
    PktsSizeGranted := addU64 aggr.PktsSizeGranted m.PktsSizeGranted
    PktsNumRequest := addU64 aggr.PktsNumRequest m.PktsNumRequest
    PktsSizeRequest := addU64 aggr.PktsSizeRequest m.PktsSizeRequest
    PktsNumDeclined := addU64 aggr.PktsNumDeclined m.PktsNumDeclined
    PktsSizeDeclined := addU64 aggr.PktsSizeDeclined m.PktsSizeDeclined
    TotPktsNumDropped := addU64 aggr.TotPktsNumDropped m.TotPktsNumDropped
    TotPktsSizeDropped := addU64 aggr.TotPktsSizeDropped m.TotPktsSizeDropped
    TotPktsNumDistributed := addU64 aggr.TotPktsNumDistributed m.TotPktsNumDistributed
    TotPktsSizeDistributed := addU64 aggr.TotPktsSizeDistributed m.TotPktsSizeDistributed
    FlowTableOcupancyCurrent := addU64 aggr.FlowTableOcupancyCurrent m.FlowTableOcupancyCurrent
    FlowTableOcupancyMax := addU64 aggr.FlowTableOcupancyMax m.FlowTableOcupancyMax }

/-- The function `aggregate`, on the entries of the map in the order in
which the `range` statement visits them: the time of the entry visited last
(the zero time for an empty map) and the running `uint64` sums. -/
def aggregate (visited : List Entry) : Time × Measurements :=
  visited.foldl (fun acc e => (e.Time, acc.2.add e.Measurements)) (Time.zero, Measurements.zero)

/-- The map `map[int]exporter.Entry` of `match`: an association list with at
most one pair per key. -/
abbrev EntryMap := List (Int × Entry)

/-- The lookup `_, repeat := entries[k]`. -/
def EntryMap.has (m : EntryMap) (k : Int) : Bool := m.any (fun p => p.1 == k)

/-- The assignment `entries[k] = v`. -/
def EntryMap.set (m : EntryMap) (k : Int) (v : Entry) : EntryMap :=
  if m.has k then m.map (fun p => if p.1 == k then (k, v) else p) else m ++ [(k, v)]

/-- The order in which `range` visits a map is unspecified in Go: the order
of the `n`-th call of `aggregate` on map `m` is `it n m`. -/
abbrev MapIter := Nat → EntryMap → EntryMap

/-- Every iteration order visits each pair of the map exactly once. -/
def MapIter.Valid (it : MapIter) : Prop := ∀ n m, (it n m).Perm m

/-- One call of the callback `f` of `match`: a time and the aggregate. -/
abbrev Sample := Time × Measurements

/-- The callback `f` of `match` (`ex.Export`): given the calls made so far
and the sample, whether it returns a nil error. -/
abbrev Export := List Sample → Sample → Bool

/-- The loop `for sc.Scan()` of `match` and the code after it.  `lines` are
the texts the scanner yields, `scErr` says whether `sc.Err()` is non-nil when
the scanner stops, `entries` is the map and `out` the calls of `f` made so
far.  The result is the list of all calls of `f` and what `match` returns. -/
def matchLoop (it : MapIter) (f : Export) (scErr : Bool) :
    List String → EntryMap → List Sample → List Sample × Outcome Unit
  | [], entries, out =>
      if scErr then (out, .ok ())
      else
        let s := aggregate ((it out.length entries).map Prod.snd)
        if f out s then (out ++ [s], .ok ())
        else (out ++ [s], .error (.other "error exporting data"))
  | line :: rest, entries, out =>
      match parseEntry line with
      | .error .errNoMatch => matchLoop it f scErr rest entries out
      | .error (.other _) => (out, .error (.other "error parsing entry"))
      | .panic => (out, .panic)
      | .ok entry =>
          if entries.has entry.Lcore then
            let s := aggregate ((it out.length entries).map Prod.snd)
            if f out s then
              matchLoop it f scErr rest (EntryMap.set [] entry.Lcore entry) (out ++ [s])
            else (out ++ [s], .error (.other "error exporting data"))
          else
            matchLoop it f scErr rest (entries.set entry.Lcore entry) out

/-- The function `match`: the loop started on an empty map. -/
def matchLines (it : MapIter) (f : Export) (lines : List String) (scErr : Bool) :
    List Sample × Outcome Unit :=
  matchLoop it f scErr lines [] []

/-- The function `parseLogFile`.  `opened` is the result of
`os.Open(filename)`: `none` for an error, otherwise the lines the scanner
yields and whether it stops with an error. -/
def parseLogFile (it : MapIter) (f : Export) (opened : Option (List String × Bool)) :
    List Sample × Outcome Unit :=
  match opened with
  | none => ([], .error (.other "error opening log file"))
  | some (lines, scErr) =>
    match matchLines it f lines scErr with
    | (out, .error _) => (out, .error (.other "error reading log file"))
    | r => r

/-! ## Checkpoint

The filesystem is a map from clean absolute paths to what they name.  The
system calls of `saveLastLog` follow POSIX `open(2)` and `rename(2)`: every
proper ancestor of a path must be a directory (`ENOTDIR` under a regular
file, `ENOENT` under a missing name), and opening a directory for writing is
`EISDIR`.  Any call may fail for a reason outside the map as well (the
`Fault`). -/

/-- What a path names: a regular file with its contents, or a directory. -/
inductive Node where
  | file (contents : String)
  | dir
  deriving DecidableEq, Repr

/-- The filesystem: a map from paths to what they name. -/
abbrev FS := String → Option Node

/-- The error numbers that path resolution produces. -/
inductive Errno where
  | ENOENT
  | ENOTDIR
  | EISDIR
  deriving DecidableEq, Repr

/-- Update of one path. -/
def FS.set (fs : FS) (path : String) (n : Option Node) : FS :=
  fun q => if q = path then n else fs q

/-- The prefixes of a path that end before a separator, the root left out;
`pre` is the text read so far, in reverse. -/
def ancestorsFrom : List Char → List Char → List String
  | _, [] => []
  | pre, c :: cs =>
      if c = '/' ∧ !pre.isEmpty then String.mk pre.reverse :: ancestorsFrom (c :: pre) cs
      else ancestorsFrom (c :: pre) cs

/-- The proper ancestors of a clean absolute path, outermost first, the root
left out: for `/var/lib/gkle/last` they are `/var`, `/var/lib` and
`/var/lib/gkle`. -/
def ancestors (path : String) : List String := ancestorsFrom [] path.toList

/-- Resolution of the directories on the way to a path: the first one that
is missing or is a regular file decides the error. -/
def FS.walk (fs : FS) : List String → Option Errno
  | [] => none
  | d :: ds =>
      match fs d with
      | some .dir => FS.walk fs ds
      | some (.file _) => some .ENOTDIR
      | none => some .ENOENT

/-- The call `open(path, O_RDWR|O_CREATE)`, with `O_TRUNC` when `trunc`:
an error when the path cannot be resolved or names a directory, otherwise
the file exists afterwards, empty when it was created or truncated. -/
def FS.openWrite (fs : FS) (path : String) (trunc : Bool) : Except Errno FS :=
  match fs.walk (ancestors path) with
  | some e => .error e
  | none =>
    match fs path with
    | some .dir => .error .EISDIR
    | some (.file _) => .ok (if trunc then fs.set path (some (.file "")) else fs)
    | none => .ok (fs.set path (some (.file "")))

/-- The call `os.Rename(old, new)` for a regular file `old`: both paths must
resolve, `old` must exist and `new` must not be a directory. -/
def FS.rename (fs : FS) (old new : String) : Except Errno FS :=
  match fs.walk (ancestors old) with
  | some e => .error e
  | none =>
    match fs.walk (ancestors new) with
    | some e => .error e
    | none =>
      match fs old with
      | none => .error .ENOENT
      | some n =>
        match fs new with
        | some .dir => .error .EISDIR
        | _ => .ok ((fs.set new (some n)).set old none)

/-- The call `os.ReadFile(path)` on the filesystem; `os.IsNotExist` holds for
`ENOENT` only. -/
def FS.readFile (fs : FS) (path : String) : ReadResult :=
  match fs.walk (ancestors path) with
  | some .ENOENT => .notExist
  | some _ => .otherError
  | none =>
    match fs path with
    | some (.file c) => .content c
    | some .dir => .otherError
    | none => .notExist

/-- The constant `lastLogFile`. -/
def lastLogFile : String := "/var/lib/gkle/last"

/-- The value of `filepath.Dir(lastLogFile)`. -/
def lastLogDir : String := "/var/lib/gkle"

/-- The steps of `saveLastLog` that reach the operating system. -/
inductive Step where
  | openDir
  | create
  | write
  | syncFile
  | rename
  | syncDir
  deriving DecidableEq, Repr

/-- A step that fails for a reason outside the map (permissions, a full
disk, an I/O error), if any; a failing write has written the first `written`
characters of the data. -/
structure Fault where
  step : Step
  written : Nat
  deriving DecidableEq, Repr

/-- Whether the given step is the one that fails. -/
def failsAt (fault : Option Fault) (s : Step) : Bool :=
  match fault with
  | some ft => ft.step == s
  | none => false

/-- The function `safeWrite`: the filesystem after each step it attempted,
in order, and the error it returns.  `os.Create` is
`open(path, O_RDWR|O_CREATE|O_TRUNC)`. -/
def safeWrite (fs : FS) (path data : String) (fault : Option Fault) :
    List (Step × FS) × Outcome Unit :=
  if failsAt fault .create then
    ([(.create, fs)], .error (.other "create failed"))
  else
    match fs.openWrite path true with
    | .error _ => ([(.create, fs)], .error (.other "create failed"))
    | .ok fs1 =>
      if failsAt fault .write then
        let n := match fault with
          | some ft => ft.written
          | none => 0
        ([(.create, fs1),
          (.write, fs1.set path (some (.file (String.mk (data.toList.take n)))))],
          .error (.other "write failed"))
      else
        let fs2 := fs1.set path (some (.file data))
        if failsAt fault .syncFile then
          ([(.create, fs1), (.write, fs2), (.syncFile, fs2)], .error (.other "sync file failed"))
        else
          ([(.create, fs1), (.write, fs2), (.syncFile, fs2)], .ok ())

/-- The filesystem a trace ends in. -/
def lastFS (fs : FS) (trace : List (Step × FS)) : FS :=
  match trace.getLast? with
  | some p => p.2
  | none => fs

/-- The function `saveLastLog`: the filesystem after each step it attempted,
in order, and the error it returns.  A crash can leave the filesystem in any
state of the trace (or in the initial one).  The first step is
`os.OpenFile(filepath.Dir(lastLogFile), os.O_RDWR|os.O_CREATE, 0755)`. -/
def saveLastLog (fs : FS) (logFile : String) (fault : Option Fault) :
    List (Step × FS) × Outcome Unit :=
  if failsAt fault .openDir then
    ([(.openDir, fs)], .error (.other "open directory failed"))
  else
    match fs.openWrite lastLogDir false with
    | .error _ => ([(.openDir, fs)], .error (.other "open directory failed"))
    | .ok fs0 =>
      let tmp := lastLogFile ++ ".tmp"
      match safeWrite fs0 tmp logFile fault with
      | (tr, .error _) => ((.openDir, fs0) :: tr, .error (.other "safe write failed"))
      | (tr, .panic) => ((.openDir, fs0) :: tr, .panic)
      | (tr, .ok ()) =>
        let fs3 := lastFS fs0 tr
        if failsAt fault .rename then
          ((.openDir, fs0) :: tr ++ [(.rename, fs3)], .error (.other "rename failed"))
        else
          match fs3.rename tmp lastLogFile with
          | .error _ =>
              ((.openDir, fs0) :: tr ++ [(.rename, fs3)], .error (.other "rename failed"))
          | .ok fs4 =>
            if failsAt fault .syncDir then
              ((.openDir, fs0) :: tr ++ [(.rename, fs4), (.syncDir, fs4)],
                .error (.other "sync directory failed"))
            else
              ((.openDir, fs0) :: tr ++ [(.rename, fs4), (.syncDir, fs4)], .ok ())

/-! ## The drain loop of `run` -/

/-- What the drain loop did with one file: the calls of `Export`, what
`parseLogFile` returned, and whether `saveLastLog` was called for the file. -/
structure FileRecord where
  file : String
  exported : List Sample
  parsed : Outcome Unit
  saveCalled : Bool
  deriving DecidableEq, Repr

/-- The loop `for _, file := range filesToParse` of `run`.  `ex file` is the
exporter created for the file, `opened file` the result of opening it,
`faults file` the failure met by `saveLastLog` for it.  The value that
`parseLogFile` returns is discarded by the loop; a panic ends the program. -/
def drain (it : MapIter) (ex : String → Export) (opened : String → Option (List String × Bool))
    (faults : String → Option Fault) : List String → FS → List FileRecord → FS × List FileRecord
  | [], fs, log => (fs, log)
  | file :: rest, fs, log =>
      match parseLogFile it (ex file) (opened file) with
      | (out, .panic) => (fs, log ++ [⟨file, out, .panic, false⟩])
      | (out, r) =>
        match saveLastLog fs file (faults file) with
        | (tr, .ok ()) => drain it ex opened faults rest (lastFS fs tr) (log ++ [⟨file, out, r, true⟩])
        | (tr, _) => (lastFS fs tr, log ++ [⟨file, out, r, true⟩])

/-! ## Vocabulary of the properties -/

/-- The pattern-matching non-directory entries of a listing, in listing
order, each joined with the directory path. -/
def logFiles (join : String → String → String) (path : String)
    (entries : List DirEntry) : List String :=
  (entries.filter (fun e => !e.isDir && logFileMatch e.name)).map (fun e => join path e.name)

/-- A listing of four rotated log files, a directory and an unrelated file. -/
def sampleListing : List DirEntry :=
  [⟨"gatekeeper_2024_01_01_00_00.log", false⟩, ⟨"gatekeeper_2024_01_01_00_01.log", false⟩,
   ⟨"archive", true⟩, ⟨"gatekeeper_2024_01_01_00_02.log", false⟩, ⟨"notes.txt", false⟩,
   ⟨"gatekeeper_2024_01_01_00_03.log", false⟩]

/-- The exact, unbounded element-wise sum of a list of measurements. -/
def Measurements.total (ms : List Measurements) : Measurements :=
  { TotPktsNum := (ms.map (fun m => m.TotPktsNum)).sum
    TotPktsSize := (ms.map (fun m => m.TotPktsSize)).sum
    PktsNumGranted := (ms.map (fun m => m.PktsNumGranted)).sum
    PktsSizeGranted := (ms.map (fun m => m.PktsSizeGranted)).sum
    PktsNumRequest := (ms.map (fun m => m.PktsNumRequest)).sum
    PktsSizeRequest := (ms.map (fun m => m.PktsSizeRequest)).sum
    PktsNumDeclined := (ms.map (fun m => m.PktsNumDeclined)).sum
    PktsSizeDeclined := (ms.map (fun m => m.PktsSizeDeclined)).sum
    TotPktsNumDropped := (ms.map (fun m => m.TotPktsNumDropped)).sum
    TotPktsSizeDropped := (ms.map (fun m => m.TotPktsSizeDropped)).sum
    TotPktsNumDistributed := (ms.map (fun m => m.TotPktsNumDistributed)).sum
    TotPktsSizeDistributed := (ms.map (fun m => m.TotPktsSizeDistributed)).sum
    FlowTableOcupancyCurrent := (ms.map (fun m => m.FlowTableOcupancyCurrent)).sum
    FlowTableOcupancyMax := (ms.map (fun m => m.FlowTableOcupancyMax)).sum }

/-- Exact element-wise addition. -/
def Measurements.plus (a b : Measurements) : Measurements :=
  { TotPktsNum := a.TotPktsNum + b.TotPktsNum
    TotPktsSize := a.TotPktsSize + b.TotPktsSize
    PktsNumGranted := a.PktsNumGranted + b.PktsNumGranted
    PktsSizeGranted := a.PktsSizeGranted + b.PktsSizeGranted
    PktsNumRequest := a.PktsNumRequest + b.PktsNumRequest
    PktsSizeRequest := a.PktsSizeRequest + b.PktsSizeRequest
    PktsNumDeclined := a.PktsNumDeclined + b.PktsNumDeclined
    PktsSizeDeclined := a.PktsSizeDeclined + b.PktsSizeDeclined
    TotPktsNumDropped := a.TotPktsNumDropped + b.TotPktsNumDropped
    TotPktsSizeDropped := a.TotPktsSizeDropped + b.TotPktsSizeDropped
    TotPktsNumDistributed := a.TotPktsNumDistributed + b.TotPktsNumDistributed
    TotPktsSizeDistributed := a.TotPktsSizeDistributed + b.TotPktsSizeDistributed
    FlowTableOcupancyCurrent := a.FlowTableOcupancyCurrent + b.FlowTableOcupancyCurrent
    FlowTableOcupancyMax := a.FlowTableOcupancyMax + b.FlowTableOcupancyMax }

/-- Every counter reduced modulo `2 ^ 64`. -/
def Measurements.wrap (m : Measurements) : Measurements :=
  { TotPktsNum := m.TotPktsNum % 2 ^ 64
    TotPktsSize := m.TotPktsSize % 2 ^ 64
    PktsNumGranted := m.PktsNumGranted % 2 ^ 64
    PktsSizeGranted := m.PktsSizeGranted % 2 ^ 64
    PktsNumRequest := m.PktsNumRequest % 2 ^ 64
    PktsSizeRequest := m.PktsSizeRequest % 2 ^ 64
    PktsNumDeclined := m.PktsNumDeclined % 2 ^ 64
    PktsSizeDeclined := m.PktsSizeDeclined % 2 ^ 64
    TotPktsNumDropped := m.TotPktsNumDropped % 2 ^ 64
    TotPktsSizeDropped := m.TotPktsSizeDropped % 2 ^ 64
    TotPktsNumDistributed := m.TotPktsNumDistributed % 2 ^ 64
    TotPktsSizeDistributed := m.TotPktsSizeDistributed % 2 ^ 64
    FlowTableOcupancyCurrent := m.FlowTableOcupancyCurrent % 2 ^ 64
    FlowTableOcupancyMax := m.FlowTableOcupancyMax % 2 ^ 64 }

/-- Every counter is below `2 ^ 64`. -/
def Measurements.Fits (m : Measurements) : Prop := m.wrap = m

/-- The pair stored in the map for an entry. -/
def kv (e : Entry) : Int × Entry := (e.Lcore, e)

/-- The loop of `match` on the records of the matching lines, for a callback
that never fails: the map and the calls of the callback when the scanner
stops. -/
def feed (it : MapIter) : List Entry → EntryMap → List Sample → EntryMap × List Sample
  | [], m, out => (m, out)
  | e :: es, m, out =>
      if m.has e.Lcore then
        feed it es (EntryMap.set [] e.Lcore e)
          (out ++ [aggregate ((it out.length m).map Prod.snd)])
      else
        feed it es (m.set e.Lcore e) out

/-- What the property asks of the sample emitted for a group: every counter is
the sum of the group's records in `uint64`, the time is that of a record of
the group. -/
def SampleOf (s : Sample) (g : List Entry) : Prop :=
  s.2 = (Measurements.total (g.map (fun e => e.Measurements))).wrap
    ∧ s.1 ∈ g.map (fun e => e.Time)

/-- A statistics line of core `lcore` in the default format, with the given
time and the given value of `tot_pkts_num`. -/
def statLine (lcore time totPktsNum : String) : String :=
  "GK/" ++ lcore ++ " " ++ time ++ " NOTICE Basic measurements [tot_pkts_num = " ++ totPktsNum
    ++ ", tot_pkts_size = 2, pkts_num_granted = 3, pkts_size_granted = 4, pkts_num_request = 5, pkts_size_request = 6, pkts_num_declined = 7, pkts_size_declined = 8, tot_pkts_num_dropped = 9, tot_pkts_size_dropped = 10, tot_pkts_num_distributed = 11, tot_pkts_size_distributed = 12, flow_table_occupancy = 13/14=92.8571%]"

/-- A line that matches the pattern and whose first counter is `2 ^ 64`. -/
def overflowLine : String :=
  "GK/3 2024-01-01 00:00:00 NOTICE Basic measurements [tot_pkts_num = 18446744073709551616, tot_pkts_size = 2, pkts_num_granted = 3, pkts_size_granted = 4, pkts_num_request = 5, pkts_size_request = 6, pkts_num_declined = 7, pkts_size_declined = 8, tot_pkts_num_dropped = 9, tot_pkts_size_dropped = 10, tot_pkts_num_distributed = 11, tot_pkts_size_distributed = 12, flow_table_occupancy = 13/14=92.8571%]"

/-- A line that matches the pattern and whose core number is `2 ^ 63`. -/
def lcoreOverflowLine : String := statLine "9223372036854775808" "2024-01-01 00:00:00" "1"

/-- A line that matches the pattern and names the thirteenth month. -/
def badMonthLine : String := statLine "3" "2024-13-01 00:00:00" "1"

/-- The record of `statLine lcore time n` for a core number, a time and a
first counter within range. -/
def statEntry (lcore : Int) (time : Time) (totPktsNum : Nat) : Entry :=
  { Time := time, Lcore := lcore,
    Measurements := ⟨totPktsNum, 2, 3, 4, 5, 6, 7, 8, 9, 10, 11, 12, 13, 14⟩ }

/-- Two cores, two reporting intervals, the cores in a different order in
the second interval, an unrelated line in between. -/
def twoBuckets : List String :=
  [statLine "0" "2024-01-01 00:00:00" "1", statLine "1" "2024-01-01 00:00:00" "10",
   "Main: gatekeeper is running",
   statLine "1" "2024-01-01 00:01:00" "100", statLine "0" "2024-01-01 00:01:00" "1000"]

/-- The records of `twoBuckets`, interval by interval. -/
def twoBucketsGroups : List (List Entry) :=
  [[statEntry 0 ⟨2024, 1, 1, 0, 0, 0⟩ 1, statEntry 1 ⟨2024, 1, 1, 0, 0, 0⟩ 10],
   [statEntry 1 ⟨2024, 1, 1, 0, 1, 0⟩ 100, statEntry 0 ⟨2024, 1, 1, 0, 1, 0⟩ 1000]]

/-- An entry whose first counter is `2 ^ 63`. -/
def halfRange (lcore : Int) : Entry := statEntry lcore ⟨2024, 1, 1, 0, 0, 0⟩ (2 ^ 63)

/-- A filesystem in which the checkpoint directory exists and the watermark
names the first rotated log file. -/
def fsOld : FS := fun q =>
  if q = "/var" ∨ q = "/var/lib" ∨ q = lastLogDir then some .dir
  else if q = lastLogFile then
    some (.file "/var/log/gatekeeper/gatekeeper_2024_01_01_00_00.log")
  else none

/-- A filesystem in which `/var/lib` exists and the checkpoint directory
does not. -/
def fsNoDir : FS := fun q =>
  if q = "/var" ∨ q = "/var/lib" then some .dir else none

/-- Two cores whose `tot_pkts_num` is `2 ^ 63` each, one reporting interval. -/
def wrapBucket : List String :=
  [statLine "0" "2024-01-01 00:00:00" "9223372036854775808",
   statLine "1" "2024-01-01 00:00:00" "9223372036854775808"]

/-! ## File selection: lemmas -/

theorem logFiles_cons_match (join : String → String → String) (path : String) (e : DirEntry)
    (es : List DirEntry) (h : (!e.isDir && logFileMatch e.name) = true) :
    logFiles join path (e :: es) = join path e.name :: logFiles join path es := by
  simp [logFiles, List.filter_cons, h]

theorem logFiles_cons_skip (join : String → String → String) (path : String) (e : DirEntry)
    (es : List DirEntry) (h : (!e.isDir && logFileMatch e.name) = false) :
    logFiles join path (e :: es) = logFiles join path es := by
  simp [logFiles, List.filter_cons, h]

theorem selectLoop_fst (join : String → String → String) (path w : String)
    (es : List DirEntry) (files : List String) (pos : Int) :
    (selectLoop join path w es files pos).1 = files ++ logFiles join path es := by
  induction es generalizing files pos with
  | nil => simp [selectLoop, logFiles]
  | cons e es ih =>
    by_cases h : (!e.isDir && logFileMatch e.name) = true
    · rw [logFiles_cons_match join path e es h]
      by_cases hw : join path e.name = w
      · simp only [selectLoop, h, hw, if_true]
        rw [ih]; simp
      · simp only [selectLoop, h, hw, if_true, if_false]
        rw [ih]; simp
    · have h' : (!e.isDir && logFileMatch e.name) = false := by simpa using h
      rw [logFiles_cons_skip join path e es h']
      simp only [selectLoop, h']
      simpa using ih files pos

theorem selectLoop_snd_of_not_mem (join : String → String → String) (path w : String)
    (es : List DirEntry) (files : List String) (pos : Int)
    (hw : w ∉ logFiles join path es) :
    (selectLoop join path w es files pos).2 = pos := by
  induction es generalizing files pos with
  | nil => simp [selectLoop]
  | cons e es ih =>
    by_cases h : (!e.isDir && logFileMatch e.name) = true
    · rw [logFiles_cons_match join path e es h] at hw
      have h1 : join path e.name ≠ w := fun heq => hw (by simp [heq])
      have h2 : w ∉ logFiles join path es := fun hm => hw (by simp [hm])
      simp only [selectLoop, h, h1, if_true, if_false]
      exact ih _ _ h2
    · have h' : (!e.isDir && logFileMatch e.name) = false := by simpa using h
      rw [logFiles_cons_skip join path e es h'] at hw
      simp only [selectLoop, h']
      simpa using ih files pos hw

theorem selectLoop_snd_of_split (join : String → String → String) (path w : String)
    (es : List DirEntry) (files : List String) (pos : Int) (a b : List String)
    (hsplit : logFiles join path es = a ++ w :: b) (hb : w ∉ b) :
    (selectLoop join path w es files pos).2 = (files.length : Int) + (a.length : Int) := by
  induction es generalizing files pos a with
  | nil => simp [logFiles] at hsplit
  | cons e es ih =>
    by_cases h : (!e.isDir && logFileMatch e.name) = true
    · rw [logFiles_cons_match join path e es h] at hsplit
      cases a with
      | nil =>
        simp only [List.nil_append, List.cons.injEq] at hsplit
        obtain ⟨h1, h2⟩ := hsplit
        simp only [selectLoop, h, h1, if_true]
        rw [selectLoop_snd_of_not_mem join path w es _ _ (by rw [h2]; exact hb)]
        simp
      | cons x a =>
        simp only [List.cons_append, List.cons.injEq] at hsplit
        obtain ⟨_, h2⟩ := hsplit
        by_cases hw : join path e.name = w
        · simp only [selectLoop, h, hw, if_true]
          rw [ih _ _ a h2]; simp; ring
        · simp only [selectLoop, h, hw, if_true, if_false]
          rw [ih _ _ a h2]; simp; ring
    · have h' : (!e.isDir && logFileMatch e.name) = false := by simpa using h
      rw [logFiles_cons_skip join path e es h'] at hsplit
      simp only [selectLoop, h']
      simpa using ih files pos a hsplit

theorem goSlice_dropLast {α : Type} (s : List α) (hs : s ≠ []) :
    goSlice s 0 ((s.length : Int) - 1) = .ok s.dropLast := by
  have hlen : 0 < s.length := List.length_pos.mpr hs
  have h1 : (0 : Int) ≤ (s.length : Int) - 1 := by omega
  have h2 : ((s.length : Int) - 1).toNat = s.length - 1 := by omega
  simp [goSlice, h1, h2, List.dropLast_eq_take]

theorem goSlice_nil_panic {α : Type} (lo : Int) :
    goSlice ([] : List α) lo (((([] : List α).length : Nat) : Int) - 1) = .panic := by
  simp only [goSlice, List.length_nil]
  rw [if_neg]
  intro h
  omega

/-- What `getFilesToParse` computes once both reads succeeded, in terms of the
final `files` and `lastParsedLogPosition`. -/
theorem getFilesToParse_eq (join : String → String → String) (path : String)
    (entries : List DirEntry) (r : ReadResult) (hr : r ≠ .otherError) :
    getFilesToParse join path (some entries) r =
      (let w : String := match r with
        | .content s => s
        | _ => ""
       let files := logFiles join path entries
       let pos := (selectLoop join path w entries [] 0).2
       if (r = .notExist) ∨ pos = 0 then goSlice files 0 ((files.length : Int) - 1)
       else goSlice files (pos + 1) ((files.length : Int) - 1)) := by
  cases r with
  | otherError => exact absurd rfl hr
  | notExist =>
    have h := selectLoop_fst join path "" entries [] 0
    simp only [List.nil_append] at h
    simp [getFilesToParse, h]
  | content s =>
    have h := selectLoop_fst join path s entries [] 0
    simp only [List.nil_append] at h
    by_cases hp : (selectLoop join path s entries [] 0).2 = 0
    · simp [getFilesToParse, h, hp]
    · simp [getFilesToParse, h, hp]

theorem mem_logFiles (join : String → String → String) (path : String)
    (entries : List DirEntry) (x : String) (hx : x ∈ logFiles join path entries) :
    ∃ e ∈ entries, e.isDir = false ∧ logFileMatch e.name = true ∧ x = join path e.name := by
  simp only [logFiles, List.mem_map, List.mem_filter] at hx
  obtain ⟨e, ⟨he, hp⟩, hxe⟩ := hx
  simp only [Bool.and_eq_true, Bool.not_eq_true'] at hp
  exact ⟨e, he, hp.1, hp.2, hxe.symm⟩

theorem logFiles_ne_nil (join : String → String → String) (path : String)
    (entries : List DirEntry)
    (h : ∃ e ∈ entries, e.isDir = false ∧ logFileMatch e.name = true) :
    logFiles join path entries ≠ [] := by
  obtain ⟨e, he, hd, hm⟩ := h
  have : join path e.name ∈ logFiles join path entries := by
    simp only [logFiles, List.mem_map, List.mem_filter]
    exact ⟨e, ⟨he, by simp [hd, hm]⟩, rfl⟩
  exact List.ne_nil_of_mem this

/-- A watermark strictly inside the list (neither the first nor the last
file): exactly the files after it, the last one excluded. -/
theorem getFilesToParse_watermark_inner (join : String → String → String) (path w : String)
    (entries : List DirEntry) (a b : List String)
    (hsplit : logFiles join path entries = a ++ w :: b) (hb : w ∉ b)
    (ha : a ≠ []) (hbne : b ≠ []) :
    getFilesToParse join path (some entries) (.content w) = .ok b.dropLast := by
  rw [getFilesToParse_eq join path entries _ (by simp)]
  have hpos := selectLoop_snd_of_split join path w entries [] 0 a b hsplit hb
  simp only [List.length_nil, Nat.cast_zero, zero_add] at hpos
  have hal : 0 < a.length := List.length_pos.mpr ha
  have hbl : 0 < b.length := List.length_pos.mpr hbne
  simp only [hpos, hsplit]
  have hne : ¬ ((ReadResult.content w = ReadResult.notExist) ∨ (a.length : Int) = 0) := by
    rintro (h | h)
    · cases h
    · omega
  rw [if_neg hne]
  have hlen : (a ++ w :: b).length = a.length + 1 + b.length := by simp; omega
  have hcond : (0 : Int) ≤ (a.length : Int) + 1 ∧
      (a.length : Int) + 1 ≤ ((a ++ w :: b).length : Int) - 1 ∧
      ((a ++ w :: b).length : Int) - 1 ≤ ((a ++ w :: b).length : Int) := by
    rw [hlen]; push_cast; omega
  simp only [goSlice, if_pos hcond]
  have h1 : (((a ++ w :: b).length : Int) - 1).toNat = (a ++ w :: b).length - 1 := by omega
  have h2 : ((a.length : Int) + 1).toNat = a.length + 1 := by omega
  rw [h1, h2, ← List.dropLast_eq_take,
    List.dropLast_append_of_ne_nil a (List.cons_ne_nil w b), List.dropLast_cons_of_ne_nil hbne]
  congr 1
  rw [List.drop_append_eq_append_drop]
  simp

/-- A watermark that is the first file of the list: the position `0` it is
found at is also the initial value of `lastParsedLogPosition`, and the
watermark file is returned again. -/
theorem getFilesToParse_watermark_first (join : String → String → String) (path w : String)
    (entries : List DirEntry) (b : List String)
    (hsplit : logFiles join path entries = w :: b) (hb : w ∉ b) :
    getFilesToParse join path (some entries) (.content w) = .ok (w :: b).dropLast := by
  rw [getFilesToParse_eq join path entries _ (by simp)]
  have hpos := selectLoop_snd_of_split join path w entries [] 0 [] b (by simpa using hsplit) hb
  simp only [List.length_nil, Nat.cast_zero, zero_add] at hpos
  simp only [hpos, hsplit, or_true, if_true]
  exact goSlice_dropLast _ (List.cons_ne_nil w b)

/-- A watermark that is the last of two or more files: the low bound of the
slice expression exceeds the high bound and the program panics. -/
theorem getFilesToParse_watermark_last (join : String → String → String) (path w : String)
    (entries : List DirEntry) (a : List String)
    (hsplit : logFiles join path entries = a ++ [w]) (ha : a ≠ []) :
    getFilesToParse join path (some entries) (.content w) = .panic := by
  rw [getFilesToParse_eq join path entries _ (by simp)]
  have hpos := selectLoop_snd_of_split join path w entries [] 0 a [] hsplit (by simp)
  simp only [List.length_nil, Nat.cast_zero, zero_add] at hpos
  have hal : 0 < a.length := List.length_pos.mpr ha
  simp only [hpos, hsplit]
  have hne : ¬ ((ReadResult.content w = ReadResult.notExist) ∨ (a.length : Int) = 0) := by
    rintro (h | h)
    · cases h
    · omega
  rw [if_neg hne]
  simp only [goSlice]
  rw [if_neg]
  intro h
  simp only [List.length_append, List.length_singleton] at h
  omega

/-- No matching file in the listing: `files[:len(files)-1]` has the high
bound `-1` and the program panics, with or without a watermark. -/
theorem getFilesToParse_empty_panic (join : String → String → String) (path : String)
    (entries : List DirEntry) (r : ReadResult) (hr : r ≠ .otherError)
    (hnil : logFiles join path entries = []) :
    getFilesToParse join path (some entries) r = .panic := by
  rw [getFilesToParse_eq join path entries r hr]
  have hpos : ∀ w, (selectLoop join path w entries [] 0).2 = 0 := fun w =>
    selectLoop_snd_of_not_mem join path w entries [] 0 (by simp [hnil])
  simp only [hpos, hnil, or_true, if_true]
  exact goSlice_nil_panic 0

/-- Without a watermark file and with at least one listed log file, the
result is the listed log files without the last. -/
theorem getFilesToParse_notExist (join : String → String → String) (path : String)
    (entries : List DirEntry) (hne : logFiles join path entries ≠ []) :
    getFilesToParse join path (some entries) .notExist
      = .ok (logFiles join path entries).dropLast := by
  rw [getFilesToParse_eq join path entries _ (by simp)]
  simp only [true_or, if_true]
  exact goSlice_dropLast _ hne

/-! ## File selection: the properties -/

/-- C5. File selection without a watermark: when the watermark file is
absent and the listing has at least one pattern-matching non-directory entry,
`getFilesToParse` returns all pattern-matching non-directory entries in
listing order except the last one, each joined with the directory path; every
returned path comes from an entry that is not a directory and matches the
rotated-log filename pattern. -/
theorem getFilesToParse_no_watermark (join : String → String → String) (path : String)
    (entries : List DirEntry)
    (h : ∃ e ∈ entries, e.isDir = false ∧ logFileMatch e.name = true) :
    getFilesToParse join path (some entries) .notExist
        = .ok (logFiles join path entries).dropLast
      ∧ ∀ x ∈ (logFiles join path entries).dropLast,
          ∃ e ∈ entries, e.isDir = false ∧ logFileMatch e.name = true ∧ x = join path e.name := by
  exact ⟨getFilesToParse_notExist join path entries (logFiles_ne_nil join path entries h),
    fun x hx => mem_logFiles join path entries x (List.mem_of_mem_dropLast hx)⟩

/-- C5, at a listing with four log files, a directory and an unrelated file. -/
theorem getFilesToParse_no_watermark_witness :
    (∃ e ∈ sampleListing, e.isDir = false ∧ logFileMatch e.name = true)
      ∧ getFilesToParse pathJoin "/var/log/gatekeeper" (some sampleListing) .notExist
          = .ok ["/var/log/gatekeeper/gatekeeper_2024_01_01_00_00.log",
                 "/var/log/gatekeeper/gatekeeper_2024_01_01_00_01.log",
                 "/var/log/gatekeeper/gatekeeper_2024_01_01_00_02.log"] :=
  ⟨⟨⟨"gatekeeper_2024_01_01_00_00.log", false⟩, by simp [sampleListing], rfl, by decide⟩,
   (getFilesToParse_no_watermark pathJoin "/var/log/gatekeeper" sampleListing
      ⟨⟨"gatekeeper_2024_01_01_00_00.log", false⟩, by simp [sampleListing], rfl,
        by decide⟩).1.trans (by decide)⟩

/-- C1, at the failing input: with the files `f1, f2, f3, f4` listed and the
watermark equal to `f1`, `getFilesToParse` returns `f1, f2, f3`: the
watermark file is returned again, where the claim has `f2, f3`. -/
theorem getFilesToParse_watermark_first_file_returned_again :
    getFilesToParse pathJoin "/var/log/gatekeeper" (some sampleListing)
        (.content "/var/log/gatekeeper/gatekeeper_2024_01_01_00_00.log")
      = .ok ["/var/log/gatekeeper/gatekeeper_2024_01_01_00_00.log",
             "/var/log/gatekeeper/gatekeeper_2024_01_01_00_01.log",
             "/var/log/gatekeeper/gatekeeper_2024_01_01_00_02.log"] := by
  decide

/-- C10, at the failing inputs: a listing without any rotated log file makes
`getFilesToParse` panic on `files[:len(files)-1]`, and so does a watermark
equal to the last of two listed files on
`files[lastParsedLogPosition+1 : len(files)-1]`. -/
theorem getFilesToParse_panics :
    getFilesToParse pathJoin "/var/log/gatekeeper" (some [⟨"notes.txt", false⟩]) .notExist
        = .panic
      ∧ getFilesToParse pathJoin "/var/log/gatekeeper"
          (some [⟨"gatekeeper_2024_01_01_00_00.log", false⟩,
                 ⟨"gatekeeper_2024_01_01_00_01.log", false⟩])
          (.content "/var/log/gatekeeper/gatekeeper_2024_01_01_00_01.log")
        = .panic := by
  decide

/-- C6, refuted: a non-empty watermark that names none of the listed files
yields exactly the outcome of a missing watermark file. -/
theorem getFilesToParse_not_found_same_as_absent :
    "/var/log/gatekeeper/gatekeeper_2023_12_31_23_59.log" ≠ ""
      ∧ "/var/log/gatekeeper/gatekeeper_2023_12_31_23_59.log"
          ∉ logFiles pathJoin "/var/log/gatekeeper" sampleListing
      ∧ getFilesToParse pathJoin "/var/log/gatekeeper" (some sampleListing)
          (.content "/var/log/gatekeeper/gatekeeper_2023_12_31_23_59.log")
        = getFilesToParse pathJoin "/var/log/gatekeeper" (some sampleListing) .notExist := by
  decide

/-- C6, amended: for every listing with at least one pattern-matching
non-directory entry and every persisted watermark that equals none of the
listed pattern-matching file paths, `getFilesToParse` returns the same list
as for a missing watermark file, all listed files but the last. -/
theorem getFilesToParse_watermark_not_found (join : String → String → String)
    (path w : String) (entries : List DirEntry)
    (h : ∃ e ∈ entries, e.isDir = false ∧ logFileMatch e.name = true)
    (hw : w ∉ logFiles join path entries) :
    getFilesToParse join path (some entries) (.content w)
        = .ok (logFiles join path entries).dropLast
      ∧ getFilesToParse join path (some entries) (.content w)
        = getFilesToParse join path (some entries) .notExist := by
  have h1 : getFilesToParse join path (some entries) (.content w)
      = .ok (logFiles join path entries).dropLast := by
    rw [getFilesToParse_eq join path entries _ (by simp)]
    simp only [selectLoop_snd_of_not_mem join path w entries [] 0 hw, or_true, if_true]
    exact goSlice_dropLast _ (logFiles_ne_nil join path entries h)
  exact ⟨h1, h1.trans (getFilesToParse_notExist join path entries
    (logFiles_ne_nil join path entries h)).symm⟩

/-- C6 amended, at a watermark naming a file rotated out of the listing. -/
theorem getFilesToParse_watermark_not_found_witness :
    (∃ e ∈ sampleListing, e.isDir = false ∧ logFileMatch e.name = true)
      ∧ "/var/log/gatekeeper/gatekeeper_2023_12_31_23_59.log"
          ∉ logFiles pathJoin "/var/log/gatekeeper" sampleListing
      ∧ getFilesToParse pathJoin "/var/log/gatekeeper" (some sampleListing)
          (.content "/var/log/gatekeeper/gatekeeper_2023_12_31_23_59.log")
        = .ok (logFiles pathJoin "/var/log/gatekeeper" sampleListing).dropLast :=
  ⟨⟨⟨"gatekeeper_2024_01_01_00_00.log", false⟩, by simp [sampleListing], rfl, by decide⟩,
   by decide,
   (getFilesToParse_watermark_not_found pathJoin "/var/log/gatekeeper"
      "/var/log/gatekeeper/gatekeeper_2023_12_31_23_59.log" sampleListing
      ⟨⟨"gatekeeper_2024_01_01_00_00.log", false⟩, by simp [sampleListing], rfl, by decide⟩
      (by decide)).1⟩

/-! ## Aggregation and the loop of `match`: lemmas -/

theorem aggregate_foldl_snd (l : List Entry) (t : Time) (acc : Measurements) :
    (l.foldl (fun (acc : Time × Measurements) e => (e.Time, acc.2.add e.Measurements))
      (t, acc)).2 = l.foldl (fun a e => a.add e.Measurements) acc := by
  induction l generalizing t acc with
  | nil => rfl
  | cons e l ih => simp only [List.foldl_cons]; exact ih _ _

theorem foldl_add_eq (l : List Entry) (acc : Measurements) (hacc : acc.wrap = acc) :
    l.foldl (fun a e => a.add e.Measurements) acc
      = (acc.plus (Measurements.total (l.map (fun e => e.Measurements)))).wrap := by
  induction l generalizing acc with
  | nil =>
    simp only [List.foldl_nil, List.map_nil]
    conv_lhs => rw [← hacc]
    simp [Measurements.plus, Measurements.total, Measurements.wrap]
  | cons e l ih =>
    simp only [List.foldl_cons]
    rw [ih (acc.add e.Measurements)
      (by simp [Measurements.add, Measurements.wrap, addU64])]
    simp only [Measurements.plus, Measurements.total, Measurements.wrap, Measurements.add,
      addU64, List.map_cons, List.sum_cons, Nat.mod_add_mod, Nat.add_assoc]

theorem aggregate_snd (visited : List Entry) :
    (aggregate visited).2
      = (Measurements.total (visited.map (fun e => e.Measurements))).wrap := by
  unfold aggregate
  rw [aggregate_foldl_snd, foldl_add_eq _ _ (by decide)]
  simp [Measurements.plus, Measurements.zero]

theorem aggregate_foldl_fst (l : List Entry) (acc : Time × Measurements) (hl : l ≠ []) :
    (l.foldl (fun (acc : Time × Measurements) e => (e.Time, acc.2.add e.Measurements))
      acc).1 ∈ l.map (fun e => e.Time) := by
  induction l generalizing acc with
  | nil => exact absurd rfl hl
  | cons e l ih =>
    simp only [List.foldl_cons]
    by_cases h : l = []
    · subst h; simp
    · exact List.mem_cons_of_mem _ (ih _ h)

theorem total_perm (a b : List Measurements) (h : a.Perm b) :
    Measurements.total a = Measurements.total b := by
  simp only [Measurements.total]
  congr 1 <;> exact (h.map _).sum_eq

theorem matchLoop_eq_feed (it : MapIter) (f : Export) (hf : ∀ h s, f h s = true)
    (lines : List String) (es : List Entry) (m : EntryMap) (out : List Sample)
    (h : (lines.map parseEntry).filter (fun r => r != .error .errNoMatch)
      = es.map Outcome.ok) :
    matchLoop it f false lines m out
      = ((feed it es m out).2
          ++ [aggregate ((it (feed it es m out).2.length (feed it es m out).1).map Prod.snd)],
         .ok ()) := by
  induction lines generalizing es m out with
  | nil =>
    cases es with
    | nil => simp [matchLoop, feed, hf]
    | cons e es => simp at h
  | cons line rest ih =>
    simp only [List.map_cons] at h
    cases hp : parseEntry line with
    | panic =>
      rw [hp] at h
      rw [List.filter_cons_of_pos (by decide)] at h
      cases es with
      | nil => simp at h
      | cons e es => simp at h
    | error err =>
      rw [hp] at h
      cases err with
      | errNoMatch =>
        rw [List.filter_cons_of_neg (by decide)] at h
        simp only [matchLoop, hp]
        exact ih es m out h
      | other msg =>
        rw [List.filter_cons_of_pos (by simp)] at h
        cases es with
        | nil => simp at h
        | cons e es => simp at h
    | ok entry =>
      rw [hp] at h
      rw [List.filter_cons_of_pos (by simp)] at h
      cases es with
      | nil => simp at h
      | cons e es =>
        simp only [List.map_cons, List.cons.injEq, Outcome.ok.injEq] at h
        obtain ⟨he, hrest⟩ := h
        subst he
        simp only [matchLoop, hp, feed, hf, if_true]
        by_cases hhas : EntryMap.has m entry.Lcore = true
        · simp only [hhas, if_true]
          exact ih es _ _ hrest
        · simp only [hhas]
          exact ih es _ _ hrest

theorem feed_append (it : MapIter) (a b : List Entry) (m : EntryMap) (out : List Sample) :
    feed it (a ++ b) m out = feed it b (feed it a m out).1 (feed it a m out).2 := by
  induction a generalizing m out with
  | nil => rfl
  | cons e a ih =>
    simp only [List.cons_append, feed]
    split
    · exact ih _ _
    · exact ih _ _

theorem has_append (m n : EntryMap) (k : Int) :
    EntryMap.has (m ++ n) k = (EntryMap.has m k || EntryMap.has n k) := by
  simp [EntryMap.has, List.any_append]

theorem has_map_kv (g : List Entry) (k : Int) :
    EntryMap.has (g.map kv) k = true ↔ k ∈ g.map (fun e => e.Lcore) := by
  simp only [EntryMap.has, List.any_eq_true, List.mem_map, kv]
  constructor
  · rintro ⟨p, ⟨e, he, rfl⟩, hk⟩
    exact ⟨e, he, by simpa using hk⟩
  · rintro ⟨e, he, rfl⟩
    exact ⟨(e.Lcore, e), ⟨e, he, rfl⟩, by simp⟩

theorem feed_fresh (it : MapIter) (es : List Entry) (m : EntryMap) (out : List Sample)
    (hfresh : ∀ e ∈ es, EntryMap.has m e.Lcore = false)
    (hnd : (es.map (fun e => e.Lcore)).Nodup) :
    feed it es m out = (m ++ es.map kv, out) := by
  induction es generalizing m with
  | nil => simp [feed]
  | cons e es ih =>
    have he : EntryMap.has m e.Lcore = false := hfresh e (List.mem_cons_self _ _)
    simp only [List.map_cons, List.nodup_cons] at hnd
    simp only [feed, he, EntryMap.set, Bool.false_eq_true, if_false]
    rw [ih (m ++ [(e.Lcore, e)]) ?_ hnd.2]
    · simp [kv]
    · intro e' he'
      rw [has_append, hfresh e' (List.mem_cons_of_mem _ he')]
      simp only [EntryMap.has, List.any_cons, List.any_nil, Bool.or_false, Bool.false_or,
        beq_eq_false_iff_ne, ne_eq]
      intro heq
      exact hnd.1 (by rw [heq]; exact List.mem_map_of_mem (fun e => e.Lcore) he')

theorem feed_group_first (it : MapIter) (g : List Entry) (out : List Sample)
    (hnd : (g.map (fun e => e.Lcore)).Nodup) :
    feed it g [] out = (g.map kv, out) := by
  rw [feed_fresh it g [] out (fun _ _ => rfl) hnd]
  simp

theorem feed_group_next (it : MapIter) (gp g : List Entry) (out : List Sample)
    (hperm : (g.map (fun e => e.Lcore)).Perm (gp.map (fun e => e.Lcore)))
    (hnd : (g.map (fun e => e.Lcore)).Nodup) (hne : g ≠ []) :
    feed it g (gp.map kv) out
      = (g.map kv, out ++ [aggregate ((it out.length (gp.map kv)).map Prod.snd)]) := by
  cases g with
  | nil => exact absurd rfl hne
  | cons e rest =>
    have hmem : e.Lcore ∈ gp.map (fun e => e.Lcore) :=
      hperm.subset (by simp)
    have hhas : EntryMap.has (gp.map kv) e.Lcore = true := (has_map_kv gp e.Lcore).mpr hmem
    simp only [List.map_cons, List.nodup_cons] at hnd
    simp only [feed, hhas, if_true]
    have hset : EntryMap.set [] e.Lcore e = [kv e] := by simp [EntryMap.set, EntryMap.has, kv]
    rw [hset, feed_fresh it rest [kv e] _ ?_ hnd.2]
    · simp
    · intro e' he'
      simp only [EntryMap.has, kv, List.any_cons, List.any_nil, Bool.or_false,
        beq_eq_false_iff_ne, ne_eq]
      intro heq
      exact hnd.1 (by rw [heq]; exact List.mem_map_of_mem (fun e => e.Lcore) he')

theorem map_snd_map_kv (g : List Entry) : (g.map kv).map Prod.snd = g := by
  induction g with
  | nil => rfl
  | cons e g ih => simp only [List.map_cons, ih, kv]

theorem aggregate_sampleOf (it : MapIter) (hit : it.Valid) (n : Nat) (g : List Entry)
    (hne : g ≠ []) :
    SampleOf (aggregate ((it n (g.map kv)).map Prod.snd)) g := by
  have hperm : ((it n (g.map kv)).map Prod.snd).Perm g := by
    have := (hit n (g.map kv)).map Prod.snd
    rwa [map_snd_map_kv] at this
  have hvne : (it n (g.map kv)).map Prod.snd ≠ [] := by
    intro h
    rw [h] at hperm
    exact hne hperm.symm.eq_nil
  constructor
  · rw [aggregate_snd]
    rw [total_perm _ _ (hperm.map (fun e => e.Measurements))]
  · have := aggregate_foldl_fst _ (Time.zero, Measurements.zero) hvne
    exact (hperm.map (fun e => e.Time)).subset this

theorem feed_groups (it : MapIter) (hit : it.Valid) (ids : List Int) (hids : ids.Nodup)
    (hne : ids ≠ []) (gs : List (List Entry)) (gp : List Entry) (out : List Sample)
    (hgp : (gp.map (fun e => e.Lcore)).Perm ids)
    (hgs : ∀ g ∈ gs, (g.map (fun e => e.Lcore)).Perm ids) :
    ∃ outs, feed it gs.flatten (gp.map kv) out
        = (((gp :: gs).getLast (List.cons_ne_nil gp gs)).map kv, out ++ outs)
      ∧ List.Forall₂ SampleOf outs (gp :: gs).dropLast := by
  induction gs generalizing gp out with
  | nil => exact ⟨[], by simp [feed], by simp⟩
  | cons g gs ih =>
    have hg : (g.map (fun e => e.Lcore)).Perm ids := hgs g (List.mem_cons_self _ _)
    have hgne : g ≠ [] := by
      intro h
      rw [h] at hg
      exact hne (by simpa using hg.symm.eq_nil)
    have hgpne : gp ≠ [] := by
      intro h
      rw [h] at hgp
      exact hne (by simpa using hgp.symm.eq_nil)
    obtain ⟨outs, h1, h2⟩ := ih g (out ++ [aggregate ((it out.length (gp.map kv)).map Prod.snd)])
      hg (fun g' hg' => hgs g' (List.mem_cons_of_mem _ hg'))
    refine ⟨aggregate ((it out.length (gp.map kv)).map Prod.snd) :: outs, ?_, ?_⟩
    · rw [List.flatten_cons, feed_append,
        feed_group_next it gp g out (hg.trans hgp.symm) (hg.nodup_iff.mpr hids) hgne]
      simp only [h1, List.getLast_cons (List.cons_ne_nil g gs), List.append_assoc,
        List.singleton_append]
    · rw [List.dropLast_cons_of_ne_nil (List.cons_ne_nil g gs)]
      exact List.Forall₂.cons (aggregate_sampleOf it hit _ gp hgpne) h2

theorem matchLoop_no_match (it : MapIter) (f : Export) (scErr : Bool) (lines : List String)
    (m : EntryMap) (out : List Sample)
    (h : ∀ l ∈ lines, parseEntry l = .error .errNoMatch) :
    matchLoop it f scErr lines m out = matchLoop it f scErr [] m out := by
  induction lines with
  | nil => rfl
  | cons l rest ih =>
    have hl := h l (List.mem_cons_self _ _)
    have hstep : matchLoop it f scErr (l :: rest) m out = matchLoop it f scErr rest m out := by
      simp only [matchLoop, hl]
    rw [hstep]
    exact ih (fun l' hl' => h l' (List.mem_cons_of_mem _ hl'))

/-- A stream without any matching line that ends without a scanner error:
the callback is called exactly once, on the aggregate of the empty map. -/
theorem matchLines_no_match (it : MapIter) (f : Export) (lines : List String)
    (h : ∀ l ∈ lines, parseEntry l = .error .errNoMatch) :
    (matchLines it f lines false).1 = [aggregate ((it 0 []).map Prod.snd)] := by
  rw [matchLines, matchLoop_no_match it f false lines [] [] h]
  simp only [matchLoop, Bool.false_eq_true, if_false, List.length_nil, List.nil_append]
  split <;> rfl

set_option maxRecDepth 100000

/-! ## Line parsing and aggregation: the properties -/

/-- C3, at the failing inputs: for the empty stream and for a stream of one
line that does not match the pattern, both ending without a scanner error,
`match` calls the callback once, not zero times, and for the empty stream the
sample it passes is the zero time with all-zero counters. -/
theorem matchLines_no_match_emits_one_sample (it : MapIter) (f : Export) :
    (matchLines it f [] false).1.length = 1
      ∧ (matchLines it f ["Main: gatekeeper is running"] false).1.length = 1
      ∧ (matchLines (fun _ m => m) f [] false).1 = [(Time.zero, Measurements.zero)] := by
  refine ⟨?_, ?_, ?_⟩
  · rw [matchLines_no_match it f [] (by simp)]; rfl
  · rw [matchLines_no_match it f _ (by decide)]; rfl
  · rw [matchLines_no_match _ f [] (by simp)]; rfl

/-- C7, at the failing input: on a line that matches the pattern and whose
`tot_pkts_num` is `2 ^ 64`, `parseEntry` panics in `mustParseUint`, it
does not return an error, and the panic leaves `match`. -/
theorem parseEntry_counter_overflow_panics :
    parseEntry overflowLine = .panic
      ∧ ∀ (it : MapIter) (f : Export), matchLines it f [overflowLine] false = ([], .panic) := by
  have h : parseEntry overflowLine = .panic := by decide
  refine ⟨h, fun it f => ?_⟩
  simp only [matchLines, matchLoop, h]

/-- The sibling paths of `parseEntry`: a core number beyond the range of
`int` and a month out of range are returned as ordinary errors, and a line
that does not match gives `errNoMatch`. -/
theorem parseEntry_errors :
    parseEntry lcoreOverflowLine = .error (.other "error parsing lcore")
      ∧ parseEntry badMonthLine = .error (.other "error parsing log time")
      ∧ parseEntry "Main: gatekeeper is running" = .error .errNoMatch := by
  decide

/-- C8, refuted: two held records whose `tot_pkts_num` is `2 ^ 63` each have
the exact sum `2 ^ 64`, and `aggregate` returns `0` for that counter. -/
theorem aggregate_wraps :
    (aggregate [halfRange 0, halfRange 1]).2.TotPktsNum = 0
      ∧ (halfRange 0).Measurements.TotPktsNum + (halfRange 1).Measurements.TotPktsNum
          = 2 ^ 64 := by
  decide

/-- C8, amended: for every bucket of held records, in whatever order the map
is visited, each of the 14 counters of the sample returned by `aggregate`
equals the exact sum of that counter over all held records reduced modulo
`2 ^ 64`. -/
theorem aggregate_sum_mod (visited : List Entry) :
    (aggregate visited).2
      = (Measurements.total (visited.map (fun e => e.Measurements))).wrap :=
  aggregate_snd visited

/-- The sample of `aggregate` is the exact sum whenever every exact sum is
below `2 ^ 64`. -/
theorem aggregate_exact_of_fits (visited : List Entry)
    (h : (Measurements.total (visited.map (fun e => e.Measurements))).Fits) :
    (aggregate visited).2 = Measurements.total (visited.map (fun e => e.Measurements)) := by
  rw [aggregate_snd]; exact h

/-- C4, refuted: two cores that each report `tot_pkts_num = 2 ^ 63` in one
interval form one group of one record per core, the callback succeeds and the
scanner ends without error, and the one sample has `tot_pkts_num = 0` where
the element-wise sum is `2 ^ 64`; and when the scanner stops with an error
after the two intervals of `twoBuckets`, `match` returns no error having
emitted one sample for the two groups. -/
theorem matchLines_sum_wraps :
    wrapBucket.map parseEntry = [.ok (halfRange 0), .ok (halfRange 1)]
      ∧ matchLines (fun _ m => m) (fun _ _ => true) wrapBucket false
          = ([(⟨2024, 1, 1, 0, 0, 0⟩, ⟨0, 4, 6, 8, 10, 12, 14, 16, 18, 20, 22, 24, 26, 28⟩)],
              .ok ())
      ∧ (halfRange 0).Measurements.TotPktsNum + (halfRange 1).Measurements.TotPktsNum
          = 2 ^ 64
      ∧ (twoBuckets.map parseEntry).filter (fun r => r != .error .errNoMatch)
          = twoBucketsGroups.flatten.map Outcome.ok
      ∧ matchLines (fun _ m => m) (fun _ _ => true) twoBuckets true
          = ([(⟨2024, 1, 1, 0, 0, 0⟩, ⟨11, 4, 6, 8, 10, 12, 14, 16, 18, 20, 22, 24, 26, 28⟩)],
              .ok ()) := by
  decide

/-- C4, amended: for `N ≥ 1` distinct source ids and `B ≥ 1` buckets, if
the records of the matching lines are `B` consecutive groups, each with
exactly one record per source id in any order, the scanner ends without an
error and the callback always succeeds, then `match` returns no error and
calls the callback exactly `B` times, in bucket order, the `k`-th time with
the element-wise sum of the records of the `k`-th group reduced modulo
`2 ^ 64` (and with the time of one of its records), the last group being
emitted by the end-of-stream flush. -/
theorem matchLines_aggregates (it : MapIter) (hit : it.Valid) (f : Export)
    (hf : ∀ h s, f h s = true) (ids : List Int) (hids : ids.Nodup) (hne : ids ≠ [])
    (groups : List (List Entry)) (hB : groups ≠ [])
    (hg : ∀ g ∈ groups, (g.map (fun e => e.Lcore)).Perm ids)
    (lines : List String)
    (hlines : (lines.map parseEntry).filter (fun r => r != .error .errNoMatch)
      = groups.flatten.map Outcome.ok) :
    (matchLines it f lines false).2 = .ok ()
      ∧ (matchLines it f lines false).1.length = groups.length
      ∧ List.Forall₂
          (fun (s : Sample) (g : List Entry) =>
            s.2 = (Measurements.total (g.map (fun e => e.Measurements))).wrap
              ∧ s.1 ∈ g.map (fun e => e.Time))
          (matchLines it f lines false).1 groups := by
  cases groups with
  | nil => exact absurd rfl hB
  | cons g0 gs =>
    have hg0 : (g0.map (fun e => e.Lcore)).Perm ids := hg g0 (List.mem_cons_self _ _)
    obtain ⟨outs, h1, h2⟩ := feed_groups it hit ids hids hne gs g0 [] hg0
      (fun g' hg' => hg g' (List.mem_cons_of_mem _ hg'))
    have hfeed : feed it (g0 :: gs).flatten [] []
        = (((g0 :: gs).getLast (List.cons_ne_nil g0 gs)).map kv, outs) := by
      rw [List.flatten_cons, feed_append, feed_group_first it g0 [] (hg0.nodup_iff.mpr hids)]
      simpa using h1
    have hlast : ((g0 :: gs).getLast (List.cons_ne_nil g0 gs)) ≠ [] := by
      intro h
      have hp := hg _ (List.getLast_mem (List.cons_ne_nil g0 gs))
      rw [h] at hp
      exact hne (by simpa using hp.symm.eq_nil)
    have hall : List.Forall₂ SampleOf
        (outs ++ [aggregate ((it outs.length
          (((g0 :: gs).getLast (List.cons_ne_nil g0 gs)).map kv)).map Prod.snd)])
        (g0 :: gs) := by
      have := List.rel_append h2
        (List.Forall₂.cons (aggregate_sampleOf it hit outs.length _ hlast) List.Forall₂.nil)
      dsimp only at this
      rwa [List.dropLast_append_getLast] at this
    have hrun : matchLines it f lines false
        = (outs ++ [aggregate ((it outs.length
            (((g0 :: gs).getLast (List.cons_ne_nil g0 gs)).map kv)).map Prod.snd)], .ok ()) := by
      rw [matchLines, matchLoop_eq_feed it f hf lines _ [] [] hlines, hfeed]
    rw [hrun]
    exact ⟨rfl, hall.length_eq, hall⟩

/-- C4 amended, on two cores and two reporting intervals with an unrelated
line in between. -/
theorem matchLines_aggregates_witness :
    (matchLines (fun _ m => m) (fun _ _ => true) twoBuckets false).2 = .ok ()
      ∧ (matchLines (fun _ m => m) (fun _ _ => true) twoBuckets false).1.length = 2
      ∧ List.Forall₂
          (fun (s : Sample) (g : List Entry) =>
            s.2 = (Measurements.total (g.map (fun e => e.Measurements))).wrap
              ∧ s.1 ∈ g.map (fun e => e.Time))
          (matchLines (fun _ m => m) (fun _ _ => true) twoBuckets false).1 twoBucketsGroups :=
  matchLines_aggregates (fun _ m => m) (fun _ _ => List.Perm.refl _) (fun _ _ => true)
    (fun _ _ => rfl) [0, 1] (by decide) (by decide) twoBucketsGroups (by decide)
    (by decide) twoBuckets (by decide)

/-! ## Checkpoint and drain loop: the properties -/

theorem ancestors_lastLogDir : ancestors lastLogDir = ["/var", "/var/lib"] := by decide

theorem ancestors_tmp :
    ancestors (lastLogFile ++ ".tmp") = ["/var", "/var/lib", "/var/lib/gkle"] := by decide

/-- After a successful `open` of the checkpoint directory path for writing,
that path names a regular file: nothing can be created under it, and the
watermark path holds what it held. -/
theorem openWrite_lastLogDir (fs fs0 : FS) (h : fs.openWrite lastLogDir false = .ok fs0) :
    fs0.openWrite (lastLogFile ++ ".tmp") true = .error .ENOTDIR
      ∧ fs0 lastLogFile = fs lastLogFile := by
  unfold FS.openWrite at h
  rw [ancestors_lastLogDir] at h
  simp only [FS.walk] at h
  unfold FS.openWrite
  rw [ancestors_tmp]
  simp only [FS.walk]
  cases h1 : fs "/var" with
  | none => simp [h1] at h
  | some n1 =>
    cases n1 with
    | file c => simp [h1] at h
    | dir =>
      cases h2 : fs "/var/lib" with
      | none => simp [h1, h2] at h
      | some n2 =>
        cases n2 with
        | file c => simp [h1, h2] at h
        | dir =>
          cases h3 : fs lastLogDir with
          | none =>
            simp only [h1, h2, h3, Except.ok.injEq] at h
            subst h
            simp [FS.set, lastLogDir, lastLogFile, h1, h2]
          | some n3 =>
            cases n3 with
            | dir => simp [h1, h2, h3] at h
            | file c =>
              simp only [h1, h2, h3, Bool.false_eq_true, if_false, Except.ok.injEq] at h
              subst h
              have h3c : fs "/var/lib/gkle" = some (Node.file c) := h3
              simp [h1, h2, h3c]

/-- On every filesystem, for every new value and whatever else fails,
`saveLastLog` returns an error, attempts nothing beyond the creation of the
temporary file, and leaves the watermark path as it was. -/
theorem saveLastLog_fails (fs : FS) (p : String) (fault : Option Fault) :
    (saveLastLog fs p fault).2 ≠ .ok ()
      ∧ ∀ q ∈ (saveLastLog fs p fault).1,
          (q.1 = Step.openDir ∨ q.1 = Step.create) ∧ q.2 lastLogFile = fs lastLogFile := by
  unfold saveLastLog
  by_cases hf : failsAt fault .openDir = true
  · simp [hf]
  · simp only [hf, Bool.false_eq_true, if_false]
    cases ho : fs.openWrite lastLogDir false with
    | error e => simp
    | ok fs0 =>
      obtain ⟨hc, hw⟩ := openWrite_lastLogDir fs fs0 ho
      have hsw : safeWrite fs0 (lastLogFile ++ ".tmp") p fault
          = ([(.create, fs0)], .error (.other "create failed")) := by
        unfold safeWrite
        by_cases hcr : failsAt fault .create = true
        · simp [hcr]
        · simp [hcr, hc]
      simp [hsw, hw]

/-- C9, at the failing inputs: `saveLastLog` opens the checkpoint directory
with `O_RDWR|O_CREATE`.  Where the directory exists the open fails and
`saveLastLog` returns `open directory failed` having done nothing; where it
does not exist the open leaves a regular file in its place, the temporary
file cannot be created under it, and the watermark file can no longer be
read.  On every filesystem `saveLastLog` returns an error, never reaches the
write or the rename, and leaves the watermark path as it was: no run returns
successfully with the new value readable. -/
theorem saveLastLog_never_succeeds :
    (saveLastLog fsOld "/var/log/gatekeeper/gatekeeper_2024_01_01_00_01.log" none).2
        = .error (.other "open directory failed")
      ∧ (saveLastLog fsOld "/var/log/gatekeeper/gatekeeper_2024_01_01_00_01.log" none).1.map
          Prod.fst = [Step.openDir]
      ∧ (lastFS fsOld (saveLastLog fsOld "/var/log/gatekeeper/gatekeeper_2024_01_01_00_01.log"
          none).1).readFile lastLogFile
        = .content "/var/log/gatekeeper/gatekeeper_2024_01_01_00_00.log"
      ∧ (saveLastLog fsNoDir "/var/log/gatekeeper/gatekeeper_2024_01_01_00_01.log" none).2
        = .error (.other "safe write failed")
      ∧ (saveLastLog fsNoDir "/var/log/gatekeeper/gatekeeper_2024_01_01_00_01.log" none).1.map
          Prod.fst = [Step.openDir, Step.create]
      ∧ fsNoDir.readFile lastLogFile = .notExist
      ∧ (lastFS fsNoDir (saveLastLog fsNoDir
          "/var/log/gatekeeper/gatekeeper_2024_01_01_00_01.log" none).1).readFile lastLogFile
        = .otherError
      ∧ ∀ (fs : FS) (p : String) (fault : Option Fault),
          (saveLastLog fs p fault).2 ≠ .ok ()
            ∧ ∀ q ∈ (saveLastLog fs p fault).1,
                (q.1 = Step.openDir ∨ q.1 = Step.create)
                  ∧ q.2 lastLogFile = fs lastLogFile := by
  refine ⟨by decide, by decide, by decide, by decide, by decide, by decide, by decide,
    fun fs p fault => saveLastLog_fails fs p fault⟩

/-- C2, at the failing inputs: the drain loop discards what `parseLogFile`
returns.  For a backlog of one file that cannot be opened `parseLogFile`
returns an error and `saveLastLog` is called for the file all the same,
whatever the filesystem and whatever `saveLastLog` then meets; the same
happens for a file whose only sample the sink rejects. -/
theorem drain_checkpoints_failed_file :
    (∀ (it : MapIter) (ex : String → Export) (faults : String → Option Fault) (fs : FS),
      (drain it ex (fun _ => none) faults
          ["/var/log/gatekeeper/gatekeeper_2024_01_01_00_01.log"] fs []).2
        = [⟨"/var/log/gatekeeper/gatekeeper_2024_01_01_00_01.log", [],
            .error (.other "error opening log file"), true⟩])
    ∧ (∀ (faults : String → Option Fault) (fs : FS),
        (drain (fun _ m => m) (fun _ _ _ => false)
          (fun _ => some ([statLine "0" "2024-01-01 00:00:00" "1"], false)) faults
          ["/var/log/gatekeeper/gatekeeper_2024_01_01_00_01.log"] fs []).2
        = [⟨"/var/log/gatekeeper/gatekeeper_2024_01_01_00_01.log",
            [(⟨2024, 1, 1, 0, 0, 0⟩, ⟨1, 2, 3, 4, 5, 6, 7, 8, 9, 10, 11, 12, 13, 14⟩)],
            .error (.other "error reading log file"), true⟩]) := by
  refine ⟨fun it ex faults fs => ?_, fun faults fs => ?_⟩
  · simp only [drain, parseLogFile]
    split <;> simp [drain]
  · have hp : parseLogFile (fun _ m => m) (fun _ _ => false)
        (some ([statLine "0" "2024-01-01 00:00:00" "1"], false))
        = ([(⟨2024, 1, 1, 0, 0, 0⟩, ⟨1, 2, 3, 4, 5, 6, 7, 8, 9, 10, 11, 12, 13, 14⟩)],
            .error (.other "error reading log file")) := by decide
    simp only [drain, hp]
    split <;> simp [drain]

end Gkle
